import Mathlib

/-!
Verification development for the clawban task/tag service layer.

The definitions below are a shallow embedding of the TypeScript sources:
  * contracts/types.ts                         — data model
  * backend/src/services/tag.service.ts        — file-backed tag registry
  * the supabase-backed tag service            — get-or-create with conflict recovery
  * backend/src/services/task.service.ts       — task CRUD / filtering
  * the supabase storage service               — row-level store operations

Conventions of the embedding:
  * the durable store is modelled as an explicit value (a list of rows) threaded
    through each operation;
  * `new Date().toISOString()` and `nanoid()` are modelled by an `Env` value
    supplying the current timestamp and the freshly generated id;
  * JS numbers for the two cost fields are modelled as `Nat` (no claim exercises
    fractional or negative values);
  * fallible store calls are modelled with `Except`, not-found results with
    `Option`, mirroring the source's `null` returns.
-/

namespace Clawban

/-! ## Data model (contracts/types.ts) -/

/-- `ModelStrategy` enum from contracts/types.ts. -/
inductive ModelStrategy
  | opusPlanning
  | opusCoding
  | sonnetCoding
  | mixed
deriving DecidableEq

/-- `TaskStatus` enum from contracts/types.ts. -/
inductive TaskStatus
  | new
  | approved
  | inProgress
  | complete
deriving DecidableEq

/-- `TaskAssignee` from contracts/types.ts is `'rufus' | 'james' | null`;
the nullable part is modelled as `Option Assignee`. -/
inductive Assignee
  | rufus
  | james
deriving DecidableEq

/-- One `llm_usage` entry (passthrough data, never inspected by the core). -/
structure LLMUsage where
  model : String
  tokens_in : Nat
  tokens_out : Nat
  cost : Nat
  timestamp : String
deriving DecidableEq

/-- The `Task` row, with the fields that `task.service.ts` reads and writes.
(`board` exists in contracts/types.ts but is never set nor read by the
service code the claims are about, so it is omitted from the embedding.) -/
structure Task where
  id : String
  title : String
  description : String
  model_strategy : ModelStrategy
  estimated_token_cost : Nat
  estimated_dollar_cost : Nat
  status : TaskStatus
  assignee : Option Assignee
  tags : List String
  created_at : String
  updated_at : String
  completed_at : Option String
  llm_usage : List LLMUsage
deriving DecidableEq

/-- The `Tag` record `{name, color}` from contracts/types.ts. -/
structure Tag where
  name : String
  color : String
deriving DecidableEq

/-- `CreateTaskRequest` from contracts/types.ts.  Optional fields are
`Option`; for `assignee`, `none` covers both "absent" and "null" since
`createTask` coerces both to `null` with `request.assignee || null`. -/
structure CreateTaskRequest where
  title : String
  description : String
  model_strategy : ModelStrategy
  estimated_token_cost : Option Nat := none
  estimated_dollar_cost : Option Nat := none
  assignee : Option (Option Assignee) := none
  tags : Option (List String) := none
deriving DecidableEq

/-- `UpdateTaskRequest` from contracts/types.ts: every field optional.
For `assignee` the outer `Option` is presence in the patch and the inner
one is the nullable value. -/
structure UpdateTaskRequest where
  title : Option String := none
  description : Option String := none
  model_strategy : Option ModelStrategy := none
  estimated_token_cost : Option Nat := none
  estimated_dollar_cost : Option Nat := none
  status : Option TaskStatus := none
  assignee : Option (Option Assignee) := none
  tags : Option (List String) := none
deriving DecidableEq

/-! ## Tag name normalization and color assignment (tag.service.ts) -/

/-- Model of the JS whitespace test used by `String.prototype.trim`
(restricted to the ASCII whitespace characters; no claim exercises the
Unicode space classes). -/
def jsIsWhitespace (c : Char) : Bool :=
  c = ' ' ∨ c = '\t' ∨ c = '\n' ∨ c = '\r' ∨ c = '\x0b' ∨ c = '\x0c'

/-- Model of `String.prototype.toLowerCase` on one code unit (ASCII range;
no claim exercises non-ASCII case mapping). -/
def jsToLowerChar (c : Char) : Char :=
  if 'A' ≤ c ∧ c ≤ 'Z' then Char.ofNat (c.toNat + 32) else c

/-- Model of `String.prototype.trim` on the character list. -/
def jsTrim (l : List Char) : List Char :=
  ((l.dropWhile jsIsWhitespace).reverse.dropWhile jsIsWhitespace).reverse

/-- `name.trim().toLowerCase()` — the normalization both tag services apply. -/
def normalizeTag (name : String) : String :=
  String.mk ((jsTrim name.data).map jsToLowerChar)

/-- The fixed 12-entry color palette of `generateTagColor`. -/
def palette : List String :=
  [ "#3b82f6", "#8b5cf6", "#ec4899", "#f59e0b", "#10b981", "#06b6d4"
  , "#6366f1", "#f97316", "#ef4444", "#14b8a6", "#a855f7", "#84cc16" ]

/-- JS `ToInt32`: wrap an integer to the signed 32-bit range.  `hash & hash`
in the source performs exactly this conversion. -/
def asInt32 (n : Int) : Int :=
  (n + 2147483648) % 4294967296 - 2147483648

/-- One loop iteration of the hash in `generateTagColor`:
`hash = ((hash << 5) - hash) + name.charCodeAt(i); hash = hash & hash`.
`hash << 5` coerces to Int32 (modelled by the inner `asInt32`), and
`hash & hash` converts the exact intermediate sum back to Int32. -/
def hashStep (h : Int) (c : Char) : Int :=
  asInt32 (asInt32 (h * 32) - h + (c.toNat : Int))

/-- The full hash loop of `generateTagColor`, folding over the string's code
units (all claim inputs are in the basic plane, where Lean code points and
JS UTF-16 code units agree). -/
def hashName (name : String) : Int :=
  name.data.foldl hashStep 0

/-- Out-of-range default for palette indexing (never reached: the index is
always reduced mod the palette length). -/
def fallbackColor : String := ""

/-- `generateTagColor` from tag.service.ts:
`palette[Math.abs(hash) % palette.length]`. -/
def generateTagColor (name : String) : String :=
  palette.getD ((hashName name).natAbs % palette.length) fallbackColor

/-! ## File-backed tag registry (tag.service.ts) -/

namespace TagService

/-- The `data.tags` record: an association of normalized name to `Tag`.
Lookup takes the first binding for a key, and creating a fresh key conses a
new binding (the record has at most one binding per key in well-formed
states). -/
abbrev Registry := List (String × Tag)

/-- `data.tags[n]` — lookup by key. -/
def lookupTag (st : Registry) (n : String) : Option Tag :=
  (st.find? (fun e => decide (e.1 = n))).map Prod.snd

/-- `getOrCreateTag` from tag.service.ts: normalize, return the stored tag
if present, otherwise create one with the auto-generated color and store
it under the normalized name. -/
def getOrCreateTag (st : Registry) (name : String) : Tag × Registry :=
  let n := normalizeTag name
  match lookupTag st n with
  | some t => (t, st)
  | none =>
    let t : Tag := { name := n, color := generateTagColor n }
    (t, (n, t) :: st)

/-- `ensureTagsExist` from tag.service.ts: get-or-create each name in order
and collect the stored tags' names. -/
def ensureTagsExist (st : Registry) (names : List String) : List String × Registry :=
  match names with
  | [] => ([], st)
  | name :: rest =>
    let p := getOrCreateTag st name
    let q := ensureTagsExist p.2 rest
    (p.1.name :: q.1, q.2)

/-- Number of registry bindings stored under a key. -/
def countKey (st : Registry) (s : String) : Nat :=
  (st.filter (fun e => decide (e.1 = s))).length

/-- Well-formedness of the registry: each binding's stored tag carries the
key it is bound to (every binding ever created by `getOrCreateTag` does). -/
def WF (st : Registry) : Prop :=
  ∀ e ∈ st, (Prod.snd e).name = e.1

end TagService

/-! ## Supabase-backed tag registry (get-or-create with conflict recovery) -/

namespace TagServiceSB

/-- A row of the `tags` table. -/
structure TagRow where
  id : String
  name : String
  color : String
deriving DecidableEq

/-- Store failures surfaced by the tag service. -/
inductive TagError
  | storageError (msg : String)
deriving DecidableEq

/-- `select * from tags where name = n` (single row). -/
def findRow (rows : List TagRow) (n : String) : Option TagRow :=
  rows.find? (fun r => decide (r.name = n))

/-- The supabase-backed `getOrCreateTag`.  `s0` is the table contents at the
initial select, `s1` at the insert (a concurrent request may have inserted
between the two; sequential execution is the special case `s0 = s1`).
`fault` injects a non-uniqueness store failure on the insert call.  The
unique constraint on `name` is the authority: the insert fails with code
23505 exactly when the normalized name is already present in `s1`, in which
case the service re-reads and returns the existing row; any other insert
error is rethrown with the `Failed to create tag` message. -/
def getOrCreateTag (newId : String) (s0 s1 : List TagRow) (fault : Option String)
    (name : String) : Except TagError (Tag × List TagRow) :=
  let n := normalizeTag name
  match findRow s0 n with
  | some row => Except.ok ({ name := row.name, color := row.color }, s1)
  | none =>
    match fault with
    | some msg => Except.error (TagError.storageError ("Failed to create tag: " ++ msg))
    | none =>
      match findRow s1 n with
      | some row => Except.ok ({ name := row.name, color := row.color }, s1)
      | none =>
        let row : TagRow := { id := newId, name := n, color := generateTagColor n }
        Except.ok ({ name := row.name, color := row.color }, s1 ++ [row])

end TagServiceSB

/-! ## Task storage and service (task.service.ts + the supabase storage file) -/

open TagService in
/-- Effect context: the timestamp `new Date().toISOString()` would produce
and the id `nanoid()` would generate during one service call. -/
structure Env where
  newId : String
  now : String

/-- `getTaskById` from the storage service: the single row with that id,
or null (not-found) when no row matches. -/
def getTaskById (store : List Task) (id : String) : Option Task :=
  store.find? (fun t => decide (t.id = id))

/-- The `updates` object `updateTask` hands to the store: the patch fields
that are present, plus the always-present `tags` and `updated_at`, plus
`completed_at` when the completion rule fired.  (`UpdateTaskRequest` has no
`completed_at` field, so a patch can never set it directly.) -/
structure Updates where
  title : Option String := none
  description : Option String := none
  model_strategy : Option ModelStrategy := none
  estimated_token_cost : Option Nat := none
  estimated_dollar_cost : Option Nat := none
  status : Option TaskStatus := none
  assignee : Option (Option Assignee) := none
  tags : List String
  updated_at : String
  completed_at : Option String := none
deriving DecidableEq

/-- Applying an `updates` object to a stored row: fields absent from the
object keep the row's value, fields present overwrite it.  This is the
row-level semantics of the store's field-wise update. -/
def applyUpdates (t : Task) (u : Updates) : Task :=
  { t with
    title := u.title.getD t.title
    description := u.description.getD t.description
    model_strategy := u.model_strategy.getD t.model_strategy
    estimated_token_cost := u.estimated_token_cost.getD t.estimated_token_cost
    estimated_dollar_cost := u.estimated_dollar_cost.getD t.estimated_dollar_cost
    status := u.status.getD t.status
    assignee := u.assignee.getD t.assignee
    tags := u.tags
    updated_at := u.updated_at
    completed_at := match u.completed_at with
      | some s => some s
      | none => t.completed_at }

/-- `updateTaskById` from the storage service: update the row with the
given id and return the updated row, or null when no row matches
(the PGRST116 case). -/
def updateTaskById (store : List Task) (id : String) (u : Updates) :
    Option Task × List Task :=
  match getTaskById store id with
  | none => (none, store)
  | some t =>
    (some (applyUpdates t u), store.map (fun x => if x.id = id then applyUpdates x u else x))

/-- `deleteTaskById` from the storage service: delete the rows matching the
id and report whether the deleted-row count was positive. -/
def deleteTaskById (store : List Task) (id : String) : Bool × List Task :=
  (decide (0 < (store.filter (fun t => decide (t.id = id))).length),
   store.filter (fun t => decide (¬ t.id = id)))

/-- `createTask` from task.service.ts: resolve the requested tags through
the registry (empty when absent), fill defaults, stamp both timestamps with
now, and insert.  The store returns the inserted row. -/
def createTask (env : Env) (reg : TagService.Registry) (store : List Task)
    (request : CreateTaskRequest) : Task × TagService.Registry × List Task :=
  let resolved := match request.tags with
    | some names => TagService.ensureTagsExist reg names
    | none => ([], reg)
  let newTask : Task :=
    { id := env.newId
      title := request.title
      description := request.description
      model_strategy := request.model_strategy
      estimated_token_cost := request.estimated_token_cost.getD 0
      estimated_dollar_cost := request.estimated_dollar_cost.getD 0
      status := TaskStatus.new
      assignee := request.assignee.getD none
      tags := resolved.1
      created_at := env.now
      updated_at := env.now
      completed_at := none
      llm_usage := [] }
  (newTask, resolved.2, store ++ [newTask])

/-- `updateTask` from task.service.ts: read the existing row (null if
absent), re-resolve tags only when the patch carries them, build the
updates object from the patch plus `updated_at := now`, set `completed_at`
to now exactly when the requested status is complete and the stored status
was not, and hand the object to the store. -/
def updateTask (env : Env) (reg : TagService.Registry) (store : List Task)
    (id : String) (request : UpdateTaskRequest) :
    Option Task × TagService.Registry × List Task :=
  match getTaskById store id with
  | none => (none, reg, store)
  | some existingTask =>
    let resolved := match request.tags with
      | some names => TagService.ensureTagsExist reg names
      | none => (existingTask.tags, reg)
    let updates : Updates :=
      { title := request.title
        description := request.description
        model_strategy := request.model_strategy
        estimated_token_cost := request.estimated_token_cost
        estimated_dollar_cost := request.estimated_dollar_cost
        status := request.status
        assignee := request.assignee
        tags := resolved.1
        updated_at := env.now
        completed_at :=
          if request.status = some TaskStatus.complete ∧ existingTask.status ≠ TaskStatus.complete
          then some env.now else none }
    let res := updateTaskById store id updates
    (res.1, resolved.2, res.2)

/-- `moveTask` from task.service.ts: `updateTask(id, { status })`. -/
def moveTask (env : Env) (reg : TagService.Registry) (store : List Task)
    (id : String) (status : TaskStatus) :
    Option Task × TagService.Registry × List Task :=
  updateTask env reg store id { status := some status }

/-- `getAllTasks` from task.service.ts: filter by assignee when that
argument is not undefined (`null` meaning unassigned), then filter by tag
when that argument is truthy — i.e. present and non-empty. -/
def getAllTasks (store : List Task) (assignee : Option (Option Assignee))
    (tag : Option String) : List Task :=
  let tasks := store
  let tasks := match assignee with
    | some a => tasks.filter (fun t => decide (t.assignee = a))
    | none => tasks
  match tag with
  | some s => if s.isEmpty then tasks else tasks.filter (fun t => t.tags.contains s)
  | none => tasks

/-- Specification-side filter predicate, written from the spec's words:
a task matches when it agrees with every provided, non-undefined filter
field — `assignee: null` meaning unassigned, and a provided tag meaning
the task's tags contain it.  Used to compare `getAllTasks` against the
spec's list semantics. -/
def matchesFilterSpec (assignee : Option (Option Assignee)) (tag : Option String)
    (t : Task) : Bool :=
  (match assignee with
    | none => true
    | some a => decide (t.assignee = a))
  && (match tag with
    | none => true
    | some s => t.tags.contains s)

end Clawban

namespace Clawban

/-! ## Helper lemmas -/

section Helpers

open TagService

theorem lookupTag_cons (k : String) (t : Tag) (st : Registry) (n : String) :
    lookupTag ((k, t) :: st) n = if k = n then some t else lookupTag st n := by
  by_cases h : k = n
  · simp [lookupTag, List.find?_cons_of_pos, h]
  · simp [lookupTag, List.find?_cons_of_neg, h]

theorem countKey_cons (k : String) (t : Tag) (st : Registry) (s : String) :
    countKey ((k, t) :: st) s = (if k = s then 1 else 0) + countKey st s := by
  by_cases h : k = s <;> simp [countKey, List.filter_cons, h, Nat.add_comm]

theorem countKey_eq_zero_of_lookup_none (st : Registry) (n : String)
    (h : lookupTag st n = none) : countKey st n = 0 := by
  induction st with
  | nil => rfl
  | cons e rest ih =>
    obtain ⟨k, t⟩ := e
    rw [lookupTag_cons] at h
    by_cases hk : k = n
    · simp [hk] at h
    · rw [if_neg hk] at h
      rw [countKey_cons]
      simp [hk, ih h]

theorem countKey_pos_of_lookup_some (st : Registry) (n : String) (t : Tag)
    (h : lookupTag st n = some t) : 0 < countKey st n := by
  induction st with
  | nil => simp [lookupTag] at h
  | cons e rest ih =>
    obtain ⟨k, u⟩ := e
    rw [lookupTag_cons] at h
    rw [countKey_cons]
    by_cases hk : k = n
    · simp [hk]
    · simp [hk] at h ⊢
      exact ih h

theorem getOrCreateTag_hit (st : Registry) (name : String) (t : Tag)
    (h : lookupTag st (normalizeTag name) = some t) :
    getOrCreateTag st name = (t, st) := by
  simp [getOrCreateTag, h]

theorem getOrCreateTag_miss (st : Registry) (name : String)
    (h : lookupTag st (normalizeTag name) = none) :
    getOrCreateTag st name =
      ({ name := normalizeTag name, color := generateTagColor (normalizeTag name) },
        (normalizeTag name,
          { name := normalizeTag name, color := generateTagColor (normalizeTag name) }) :: st) := by
  simp [getOrCreateTag, h]

theorem ensureTagsExist_all_hit (names : List String) (st : Registry) (s : String) (t : Tag)
    (hall : ∀ n ∈ names, normalizeTag n = s) (h : lookupTag st s = some t) :
    ensureTagsExist st names = (names.map (fun _ => t.name), st) := by
  induction names with
  | nil => simp [ensureTagsExist]
  | cons n0 rest ih =>
    have h0 : normalizeTag n0 = s := hall n0 (List.mem_cons_self n0 rest)
    have hhit : getOrCreateTag st n0 = (t, st) := getOrCreateTag_hit st n0 t (h0 ▸ h)
    have hrest := ih (fun n hn => hall n (List.mem_cons_of_mem n0 hn))
    simp [ensureTagsExist, hhit, hrest]

theorem getOrCreateTag_fst_name (st : Registry) (name : String) (hWF : WF st) :
    ((getOrCreateTag st name).1).name = normalizeTag name := by
  cases hl : lookupTag st (normalizeTag name) with
  | none => simp [getOrCreateTag_miss st name hl]
  | some t =>
    rw [getOrCreateTag_hit st name t hl]
    simp only [lookupTag, Option.map_eq_some'] at hl
    obtain ⟨e, he, het⟩ := hl
    have hp : e.1 = normalizeTag name := by simpa using List.find?_some he
    have hm := List.mem_of_find?_eq_some he
    rw [← het, hWF e hm, hp]

theorem getOrCreateTag_WF (st : Registry) (name : String) (hWF : WF st) :
    WF (getOrCreateTag st name).2 := by
  cases hl : lookupTag st (normalizeTag name) with
  | none =>
    rw [getOrCreateTag_miss st name hl]
    intro e he
    rcases List.mem_cons.mp he with h | h
    · rw [h]
    · exact hWF e h
  | some t =>
    rw [getOrCreateTag_hit st name t hl]
    exact hWF

theorem ensureTagsExist_fst_names (names : List String) (st : Registry) (hWF : WF st) :
    (ensureTagsExist st names).1 = names.map normalizeTag
      ∧ WF (ensureTagsExist st names).2 := by
  induction names generalizing st with
  | nil => simpa [ensureTagsExist] using hWF
  | cons n0 rest ih =>
    have h1 := getOrCreateTag_fst_name st n0 hWF
    have h2 := getOrCreateTag_WF st n0 hWF
    have h3 := ih (getOrCreateTag st n0).2 h2
    simp [ensureTagsExist, h1, h3]

end Helpers

section HashHelpers

theorem hashStep_eq (h : Int) (c : Char) :
    hashStep h c = asInt32 (31 * h + (c.toNat : Int)) := by
  simp only [hashStep, asInt32]
  omega

theorem asInt32_range (n : Int) :
    -2147483648 ≤ asInt32 n ∧ asInt32 n < 2147483648 := by
  simp only [asInt32]
  omega

theorem foldl_hashStep_range (l : List Char) (h : Int)
    (hh : -2147483648 ≤ h ∧ h < 2147483648) :
    -2147483648 ≤ l.foldl hashStep h ∧ l.foldl hashStep h < 2147483648 := by
  induction l generalizing h with
  | nil => exact hh
  | cons c rest ih => exact ih (hashStep h c) (asInt32_range _)

theorem hashName_range (s : String) :
    -2147483648 ≤ hashName s ∧ hashName s < 2147483648 :=
  foldl_hashStep_range s.data 0 (by constructor <;> omega)

theorem hashName_push (s : String) (c : Char) :
    hashName (s.push c) = asInt32 (31 * hashName s + (c.toNat : Int)) := by
  have hdata : (s.push c).data = s.data ++ [c] := rfl
  rw [hashName, hdata, List.foldl_append]
  simp [List.foldl, hashStep_eq, hashName]

theorem generateTagColor_mem (s : String) : generateTagColor s ∈ palette := by
  have hlen : palette.length = 12 := by decide
  have hidx : (hashName s).natAbs % palette.length < palette.length := by
    rw [hlen]; exact Nat.mod_lt _ (by decide)
  rw [generateTagColor, List.getD_eq_getElem _ _ hidx]
  exact List.getElem_mem hidx

end HashHelpers

section UpdateHelpers

/-- The `updates` object that `updateTask` builds from a patch against an
existing row, before handing it to the store. -/
def updatesFor (env : Env) (reg : TagService.Registry) (t : Task)
    (r : UpdateTaskRequest) : Updates :=
  { title := r.title
    description := r.description
    model_strategy := r.model_strategy
    estimated_token_cost := r.estimated_token_cost
    estimated_dollar_cost := r.estimated_dollar_cost
    status := r.status
    assignee := r.assignee
    tags := match r.tags with
      | some names => (TagService.ensureTagsExist reg names).1
      | none => t.tags
    updated_at := env.now
    completed_at :=
      if r.status = some TaskStatus.complete ∧ t.status ≠ TaskStatus.complete
      then some env.now else none }

theorem updateTask_fst (env : Env) (reg : TagService.Registry) (store : List Task)
    (id : String) (t : Task) (r : UpdateTaskRequest)
    (h : getTaskById store id = some t) :
    (updateTask env reg store id r).1 = some (applyUpdates t (updatesFor env reg t r)) := by
  cases htags : r.tags <;>
    simp [updateTask, updateTaskById, h, updatesFor, htags]

theorem updateTask_reg_of_tags_none (env : Env) (reg : TagService.Registry)
    (store : List Task) (id : String) (t : Task) (r : UpdateTaskRequest)
    (h : getTaskById store id = some t) (htags : r.tags = none) :
    (updateTask env reg store id r).2.1 = reg := by
  simp [updateTask, h, htags]

end UpdateHelpers

end Clawban

namespace Clawban

/-! ## Concrete sample values used by witnesses and counterexamples -/

/-- A fixed effect context: fresh id `id1`, current time `T9`. -/
def envX : Env := { newId := "id1", now := "T9" }

/-- A completed task with a non-null completion timestamp. -/
def taskDone : Task :=
  { id := "a1", title := "A", description := "B"
  , model_strategy := ModelStrategy.mixed
  , estimated_token_cost := 0, estimated_dollar_cost := 0
  , status := TaskStatus.complete, assignee := none, tags := []
  , created_at := "T0", updated_at := "T0"
  , completed_at := some ("T1"), llm_usage := [] }

/-- A freshly created task (status new, no completion timestamp). -/
def taskFresh : Task :=
  { id := "a2", title := "A", description := "B"
  , model_strategy := ModelStrategy.mixed
  , estimated_token_cost := 0, estimated_dollar_cost := 0
  , status := TaskStatus.new, assignee := none, tags := []
  , created_at := "T0", updated_at := "T0"
  , completed_at := none, llm_usage := [] }

/-- A task carrying one tag, `x`. -/
def taskX : Task :=
  { id := "a3", title := "A", description := "B"
  , model_strategy := ModelStrategy.mixed
  , estimated_token_cost := 0, estimated_dollar_cost := 0
  , status := TaskStatus.new, assignee := none, tags := [("x")]
  , created_at := "T0", updated_at := "T0"
  , completed_at := none, llm_usage := [] }

/-- A task assigned to rufus. -/
def taskR : Task :=
  { id := "a4", title := "A", description := "B"
  , model_strategy := ModelStrategy.mixed
  , estimated_token_cost := 0, estimated_dollar_cost := 0
  , status := TaskStatus.new, assignee := some Assignee.rufus, tags := []
  , created_at := "T0", updated_at := "T0"
  , completed_at := none, llm_usage := [] }

/-- A task assigned to james. -/
def taskJ : Task :=
  { id := "a5", title := "A", description := "B"
  , model_strategy := ModelStrategy.mixed
  , estimated_token_cost := 0, estimated_dollar_cost := 0
  , status := TaskStatus.new, assignee := some Assignee.james, tags := []
  , created_at := "T0", updated_at := "T0"
  , completed_at := none, llm_usage := [] }

/-! ## Claim C4 -/

/-- C4: `deleteTaskById` returns true exactly when a row with the given id
existed in the store; the call removes every row with that id and keeps
every other row. -/
theorem c4_delete_result_correctness (store : List Task) (id : String) :
    ((deleteTaskById store id).1 = true ↔ ∃ t ∈ store, t.id = id)
    ∧ (∀ t ∈ store, t.id ≠ id → t ∈ (deleteTaskById store id).2)
    ∧ (∀ t ∈ (deleteTaskById store id).2, t.id ≠ id ∧ t ∈ store) := by
  refine ⟨?_, ?_, ?_⟩
  · simp [deleteTaskById, List.length_pos_iff_exists_mem, List.mem_filter]
  · intro t ht hne
    simp [deleteTaskById, List.mem_filter, ht, hne]
  · intro t ht
    simp [deleteTaskById, List.mem_filter] at ht
    exact ⟨ht.2, ht.1⟩

/-- Witness for C4 at a one-row store whose row carries the deleted id. -/
theorem c4_witness :
    (deleteTaskById [taskX] (taskX.id)).1 = true ↔ ∃ t ∈ [taskX], t.id = taskX.id :=
  (c4_delete_result_correctness [taskX] (taskX.id)).1

/-! ## Claim C7 -/

/-- C7: on an id with no stored row, `getTaskById`, `updateTask` and
`moveTask` return the not-found indicator (null) and `deleteTaskById`
returns false, and each leaves the store and registry unchanged. -/
theorem c7_not_found_first_class (env : Env) (reg : TagService.Registry)
    (store : List Task) (id : String) (r : UpdateTaskRequest) (s : TaskStatus)
    (h : ∀ t ∈ store, t.id ≠ id) :
    getTaskById store id = none
    ∧ updateTask env reg store id r = (none, reg, store)
    ∧ moveTask env reg store id s = (none, reg, store)
    ∧ deleteTaskById store id = (false, store) := by
  have hfind : getTaskById store id = none := by
    apply List.find?_eq_none.mpr
    intro t ht
    simpa using h t ht
  refine ⟨hfind, ?_, ?_, ?_⟩
  · simp [updateTask, hfind]
  · simp [moveTask, updateTask, hfind]
  · have h1 : store.filter (fun t => decide (t.id = id)) = [] := by
      rw [List.filter_eq_nil_iff]
      intro t ht
      simpa using h t ht
    have h2 : store.filter (fun t => decide (¬ t.id = id)) = store := by
      rw [List.filter_eq_self]
      intro t ht
      simpa using h t ht
    unfold deleteTaskById
    rw [h1, h2]
    rfl

/-- Witness for C7 at a one-row store and an id matching no row. -/
theorem c7_witness :
    getTaskById [taskX] ("nope") = none
    ∧ updateTask envX [] [taskX] ("nope") {} = (none, [], [taskX])
    ∧ moveTask envX [] [taskX] ("nope") TaskStatus.complete = (none, [], [taskX])
    ∧ deleteTaskById [taskX] ("nope") = (false, [taskX]) :=
  c7_not_found_first_class envX [] [taskX] ("nope") {} TaskStatus.complete (by decide)

/-! ## Claim C9 -/

/-- C9: tag color assignment is deterministic: the palette has at least 10
entries, the computed color is always one of the palette entries, the hash
obeys the 32-bit-wraparound polynomial recurrence `h ↦ 31·h + code` over
the name's code units while staying in signed 32-bit range, and equal
strings always receive equal colors. -/
theorem c9_deterministic_color (s t : String) (c : Char) (hst : s = t) :
    10 ≤ palette.length
    ∧ generateTagColor s ∈ palette
    ∧ hashName (s.push c) = asInt32 (31 * hashName s + (c.toNat : Int))
    ∧ (-2147483648 ≤ hashName s ∧ hashName s < 2147483648)
    ∧ generateTagColor s = generateTagColor t :=
  ⟨by decide, generateTagColor_mem s, hashName_push s c, hashName_range s, by rw [hst]⟩

/-- Witness for C9 at the concrete name `bug`. -/
theorem c9_witness :
    10 ≤ palette.length
    ∧ generateTagColor ("bug") ∈ palette
    ∧ hashName (String.push ("bug") 'x') = asInt32 (31 * hashName ("bug") + ('x'.toNat : Int))
    ∧ (-2147483648 ≤ hashName ("bug") ∧ hashName ("bug") < 2147483648)
    ∧ generateTagColor ("bug") = generateTagColor ("bug") :=
  c9_deterministic_color ("bug") ("bug") 'x' rfl

end Clawban

namespace Clawban

/-! ## Claim C2 -/

/-- C2: tag resolution is idempotent on normalized names: a lookup hit
returns the stored tag with the registry unchanged, and resolving any
non-empty batch of names that all normalize to the same string leaves the
registry with exactly one binding under that string — the pre-existing tag
if there was one, otherwise a fresh tag with the hash-derived color —
while every other key's bindings are untouched. -/
theorem c2_idempotent_tag_resolution (st : TagService.Registry) (name : String)
    (names : List String) (s : String) (t : Tag)
    (hhit : TagService.lookupTag st (normalizeTag name) = some t)
    (hne : names ≠ [])
    (hall : ∀ n ∈ names, normalizeTag n = s)
    (hclean : TagService.countKey st s ≤ 1) :
    TagService.getOrCreateTag st name = (t, st)
    ∧ TagService.countKey (TagService.ensureTagsExist st names).2 s = 1
    ∧ (∀ k, k ≠ s →
        TagService.countKey (TagService.ensureTagsExist st names).2 k
          = TagService.countKey st k)
    ∧ TagService.lookupTag (TagService.ensureTagsExist st names).2 s
        = some ((TagService.lookupTag st s).getD
            { name := s, color := generateTagColor s }) := by
  refine ⟨getOrCreateTag_hit st name t hhit, ?_⟩
  cases hl : TagService.lookupTag st s with
  | some t0 =>
    have hstate := ensureTagsExist_all_hit names st s t0 hall hl
    have hpos := countKey_pos_of_lookup_some st s t0 hl
    have hst2 : (TagService.ensureTagsExist st names).2 = st := by rw [hstate]
    refine ⟨?_, ?_, ?_⟩
    · rw [hst2]
      omega
    · intro k hk
      rw [hst2]
    · rw [hst2, hl]
      rfl
  | none =>
    obtain ⟨n0, rest, rfl⟩ : ∃ n0 rest, names = n0 :: rest := by
      cases names with
      | nil => exact absurd rfl hne
      | cons a b => exact ⟨a, b, rfl⟩
    have h0 : normalizeTag n0 = s := hall n0 (List.mem_cons_self n0 rest)
    have hmiss : TagService.lookupTag st (normalizeTag n0) = none := by
      rw [h0]; exact hl
    have hstep := getOrCreateTag_miss st n0 hmiss
    rw [h0] at hstep
    have hl1 : TagService.lookupTag
        ((s, { name := s, color := generateTagColor s }) :: st) s
        = some { name := s, color := generateTagColor s } := by
      rw [lookupTag_cons]
      simp
    have hrest := ensureTagsExist_all_hit rest
      ((s, { name := s, color := generateTagColor s }) :: st) s
      { name := s, color := generateTagColor s }
      (fun n hn => hall n (List.mem_cons_of_mem n0 hn)) hl1
    have hfinal : (TagService.ensureTagsExist st (n0 :: rest)).2
        = (s, { name := s, color := generateTagColor s }) :: st := by
      simp [TagService.ensureTagsExist, hstep, hrest]
    have hzero := countKey_eq_zero_of_lookup_none st s hl
    refine ⟨?_, ?_, ?_⟩
    · rw [hfinal, countKey_cons]
      simp [hzero]
    · intro k hk
      rw [hfinal, countKey_cons, if_neg (fun hsk => hk hsk.symm)]
      omega
    · rw [hfinal, hl1]
      simp [hl]

/-- The tag named bug with its hash-derived color. -/
def tagBug : Tag := { name := "bug", color := generateTagColor ("bug") }

/-- A registry already holding the bug tag. -/
def regBug : TagService.Registry := [("bug", tagBug)]

/-- Three spellings normalizing to bug. -/
def namesBug : List String := [("Bug"), ("bug"), (" BUG ")]

/-- Witness for C2: resolving Bug / bug / BUG against a registry that
already stores bug returns the stored tag and leaves exactly one binding. -/
theorem c2_witness :
    TagService.getOrCreateTag regBug (" BUG ") = (tagBug, regBug)
    ∧ TagService.countKey (TagService.ensureTagsExist regBug namesBug).2 ("bug") = 1 := by
  have h := c2_idempotent_tag_resolution regBug (" BUG ") namesBug ("bug") tagBug
    (by decide) (by decide) (by decide) (by decide)
  exact ⟨h.1, h.2.1⟩

/-! ## Claim C6 -/

/-- C6: when the insert of a new tag hits the store's unique constraint
(the normalized name is already present at insert time), the supabase-
backed `getOrCreateTag` re-reads the existing row and returns it with no
error; when the insert fails with any non-uniqueness store error, that
error propagates to the caller as a storage error with the service's
message, unmasked. -/
theorem c6_conflict_recovery (newId : String) (s0 s1 : List TagServiceSB.TagRow)
    (name msg : String) (row : TagServiceSB.TagRow)
    (h0 : TagServiceSB.findRow s0 (normalizeTag name) = none)
    (h1 : TagServiceSB.findRow s1 (normalizeTag name) = some row) :
    TagServiceSB.getOrCreateTag newId s0 s1 none name
      = Except.ok ({ name := row.name, color := row.color }, s1)
    ∧ TagServiceSB.getOrCreateTag newId s0 s1 (some msg) name
      = Except.error (TagServiceSB.TagError.storageError ("Failed to create tag: " ++ msg)) := by
  constructor
  · simp [TagServiceSB.getOrCreateTag, h0, h1]
  · simp [TagServiceSB.getOrCreateTag, h0]

/-- A stored row for the bug tag in the supabase-backed registry. -/
def rowBug : TagServiceSB.TagRow :=
  { id := "r1", name := "bug", color := generateTagColor ("bug") }

/-- Witness for C6: a race where bug appears between select and insert is
resolved to the existing row, and an injected non-uniqueness failure
propagates. -/
theorem c6_witness :
    TagServiceSB.getOrCreateTag ("id2") [] [rowBug] none ("Bug")
      = Except.ok ({ name := rowBug.name, color := rowBug.color }, [rowBug])
    ∧ TagServiceSB.getOrCreateTag ("id2") [] [rowBug] (some ("boom")) ("Bug")
      = Except.error (TagServiceSB.TagError.storageError ("Failed to create tag: " ++ "boom")) :=
  c6_conflict_recovery ("id2") [] [rowBug] ("Bug") ("boom") rowBug (by decide) (by decide)

/-! ## Claim C10 -/

/-- C10: `ensureTagsExist` yields exactly one normalized name per input
element, in input order and without deduplication, so a create whose tag
list contains two spellings of the same normalized name stores that name
twice in the task's tags. -/
theorem c10_tag_multiplicity (reg : TagService.Registry) (env : Env)
    (store : List Task) (req : CreateTaskRequest) (names : List String)
    (hWF : TagService.WF reg) (htags : req.tags = some names) :
    (TagService.ensureTagsExist reg names).1 = names.map normalizeTag
    ∧ (TagService.ensureTagsExist reg names).1.length = names.length
    ∧ (createTask env reg store req).1.tags = names.map normalizeTag := by
  have h := ensureTagsExist_fst_names names reg hWF
  refine ⟨h.1, by rw [h.1]; exact List.length_map _ _, ?_⟩
  simp [createTask, htags, h.1]

/-- Witness for C10: resolving Bug and bug against an empty registry
returns bug twice — no deduplication. -/
theorem c10_witness :
    (TagService.ensureTagsExist [] [("Bug"), ("bug")]).1 = [("bug"), ("bug")] := by
  have h := c10_tag_multiplicity [] envX []
    ({ title := "T", description := "D", model_strategy := ModelStrategy.mixed
     , tags := some [("Bug"), ("bug")] })
    [("Bug"), ("bug")] (by intro e he; cases he) rfl
  rw [h.1]
  decide

end Clawban

namespace Clawban

/-! ## Claim C8 -/

/-- C8: a create whose request omits the optional fields stores and returns
a task with the fresh id, status new, null completion, zero costs, null
assignee, empty tags and usage log, and both timestamps set to now; a
provided tag list is resolved through the registry, so the stored task
carries the normalized names. -/
theorem c8_default_fill (env : Env) (reg : TagService.Registry) (store : List Task)
    (req : CreateTaskRequest)
    (h1 : req.estimated_token_cost = none)
    (h2 : req.estimated_dollar_cost = none)
    (h3 : req.assignee = none)
    (hWF : TagService.WF reg) :
    (createTask env reg store req).1.id = env.newId
    ∧ (createTask env reg store req).1.status = TaskStatus.new
    ∧ (createTask env reg store req).1.completed_at = none
    ∧ (createTask env reg store req).1.estimated_token_cost = 0
    ∧ (createTask env reg store req).1.estimated_dollar_cost = 0
    ∧ (createTask env reg store req).1.assignee = none
    ∧ (createTask env reg store req).1.created_at = env.now
    ∧ (createTask env reg store req).1.updated_at = env.now
    ∧ (createTask env reg store req).1.llm_usage = []
    ∧ (createTask env reg store req).2.2 = store ++ [(createTask env reg store req).1]
    ∧ (req.tags = none →
        (createTask env reg store req).1.tags = []
          ∧ (createTask env reg store req).2.1 = reg)
    ∧ (∀ names, req.tags = some names →
        (createTask env reg store req).1.tags = names.map normalizeTag) := by
  cases htags : req.tags with
  | none => simp [createTask, htags, h1, h2, h3]
  | some names =>
    have h := ensureTagsExist_fst_names names reg hWF
    simp [createTask, htags, h1, h2, h3, h.1]

/-- A minimal create request: only the required fields. -/
def reqMin : CreateTaskRequest :=
  { title := "T", description := "D", model_strategy := ModelStrategy.mixed }

/-- Witness for C8 at the minimal request against empty registry and store. -/
theorem c8_witness :
    (createTask envX [] [] reqMin).1.status = TaskStatus.new
    ∧ (createTask envX [] [] reqMin).1.estimated_token_cost = 0
    ∧ (createTask envX [] [] reqMin).1.estimated_dollar_cost = 0
    ∧ (createTask envX [] [] reqMin).1.assignee = none
    ∧ (createTask envX [] [] reqMin).1.completed_at = none := by
  have h := c8_default_fill envX [] [] reqMin rfl rfl rfl (by intro e he; cases he)
  exact ⟨h.2.1, h.2.2.2.1, h.2.2.2.2.1, h.2.2.2.2.2.1, h.2.2.1⟩

/-! ## Claim C1 -/

/-- C1 counterexample: moving the completed task `taskDone` (with
`completed_at = some T1`) to in-progress yields a task whose status is no
longer complete but whose `completed_at` is still `some T1` — the code
never clears `completed_at` on a transition away from complete, so the
claimed iff-invariant is violated after this move. -/
theorem c1_counterexample :
    Option.map Task.status
        (moveTask envX [] [taskDone] ("a1") TaskStatus.inProgress).1
      = some TaskStatus.inProgress
    ∧ Option.map Task.completed_at
        (moveTask envX [] [taskDone] ("a1") TaskStatus.inProgress).1
      = some (some ("T1")) := by
  decide

/-- C1 (amended): the status/completion coupling holds after create, and a
transition into complete sets `completed_at` to now; but a transition away
from complete does not clear `completed_at` (it keeps its prior value), so
the iff-invariant is preserved by update and move only when the operation
does not move the task away from complete. -/
theorem c1_amended_status_completion (env : Env) (reg : TagService.Registry)
    (store : List Task) (id : String) (t : Task) (r : UpdateTaskRequest)
    (req : CreateTaskRequest) (s : TaskStatus)
    (hfound : getTaskById store id = some t)
    (hinv : t.status = TaskStatus.complete ↔ t.completed_at ≠ none)
    (hupd : ¬ (t.status = TaskStatus.complete
                ∧ r.status ≠ none ∧ r.status ≠ some TaskStatus.complete))
    (hmove : ¬ (t.status = TaskStatus.complete ∧ s ≠ TaskStatus.complete)) :
    ((createTask env reg store req).1.status = TaskStatus.complete
      ↔ (createTask env reg store req).1.completed_at ≠ none)
    ∧ (∀ t', (updateTask env reg store id r).1 = some t' →
        ((t'.status = TaskStatus.complete ↔ t'.completed_at ≠ none)
          ∧ (r.status = some TaskStatus.complete → t.status ≠ TaskStatus.complete →
              t'.completed_at = some env.now)
          ∧ (t.status = TaskStatus.complete → r.status ≠ some TaskStatus.complete →
              r.status ≠ none → t'.completed_at = t.completed_at)))
    ∧ (∀ t', (moveTask env reg store id s).1 = some t' →
        (t'.status = TaskStatus.complete ↔ t'.completed_at ≠ none))
    ∧ (updateTask env reg store id r).1.isSome = true := by
  have key : ∀ (q : UpdateTaskRequest),
      ¬ (t.status = TaskStatus.complete
          ∧ q.status ≠ none ∧ q.status ≠ some TaskStatus.complete) →
      (((applyUpdates t (updatesFor env reg t q)).status = TaskStatus.complete
          ↔ (applyUpdates t (updatesFor env reg t q)).completed_at ≠ none)
        ∧ (q.status = some TaskStatus.complete → t.status ≠ TaskStatus.complete →
            (applyUpdates t (updatesFor env reg t q)).completed_at = some env.now)
        ∧ (t.status = TaskStatus.complete → q.status ≠ some TaskStatus.complete →
            q.status ≠ none →
            (applyUpdates t (updatesFor env reg t q)).completed_at = t.completed_at)) := by
    intro q hcond
    cases hcs : q.status with
    | none =>
      refine ⟨?_, by simp [hcs], by simp [hcs]⟩
      simpa [applyUpdates, updatesFor, hcs] using hinv
    | some st =>
      by_cases hst : st = TaskStatus.complete
      · subst hst
        by_cases htc : t.status = TaskStatus.complete
        · have hcomp : t.completed_at ≠ none := hinv.mp htc
          refine ⟨?_, by simp [htc], ?_⟩
          · simpa [applyUpdates, updatesFor, hcs, htc] using hcomp
          · intro _ habs
            exact absurd rfl habs
        · refine ⟨?_, ?_, fun hc => absurd hc htc⟩
          · simp [applyUpdates, updatesFor, hcs, htc]
          · intro _ _
            simp [applyUpdates, updatesFor, hcs, htc]
      · have htc : t.status ≠ TaskStatus.complete := by
          intro hc
          exact hcond ⟨hc, by simp [hcs], by simp [hcs, hst]⟩
        have hnone : t.completed_at = none := by
          by_contra hne
          exact htc (hinv.mpr hne)
        refine ⟨?_, ?_, fun hc => absurd hc htc⟩
        · simp [applyUpdates, updatesFor, hcs, hst, htc, hnone]
        · intro habs
          exact absurd (Option.some.inj habs) hst
  refine ⟨?_, ?_, ?_, ?_⟩
  · simp [createTask]
  · intro t' ht'
    rw [updateTask_fst env reg store id t r hfound] at ht'
    obtain rfl : t' = applyUpdates t (updatesFor env reg t r) := (Option.some.inj ht').symm
    exact key r hupd
  · intro t' ht'
    unfold moveTask at ht'
    rw [updateTask_fst env reg store id t _ hfound] at ht'
    obtain rfl : t' = applyUpdates t (updatesFor env reg t { status := some s }) :=
      (Option.some.inj ht').symm
    have hcond : ¬ (t.status = TaskStatus.complete
        ∧ ({ status := some s } : UpdateTaskRequest).status ≠ none
        ∧ ({ status := some s } : UpdateTaskRequest).status ≠ some TaskStatus.complete) := by
      rintro ⟨hc, _, hnc⟩
      exact hmove ⟨hc, fun hs => hnc (by rw [hs])⟩
    exact (key { status := some s } hcond).1
  · rw [updateTask_fst env reg store id t r hfound]
    rfl

/-- Witness for C1 (amended): moving the fresh task to complete sets
`completed_at` to now and restores the invariant. -/
theorem c1_witness :
    ((createTask envX [] [] reqMin).1.status = TaskStatus.complete
      ↔ (createTask envX [] [] reqMin).1.completed_at ≠ none)
    ∧ (updateTask envX [] [taskFresh] ("a2")
        { status := some TaskStatus.complete }).1.isSome = true := by
  have h := c1_amended_status_completion envX [] [taskFresh] ("a2") taskFresh
    { status := some TaskStatus.complete } reqMin TaskStatus.complete
    (by decide) (by decide) (by decide) (by decide)
  exact ⟨h.1, h.2.2.2⟩

end Clawban

namespace Clawban

/-! ## Claim C3 -/

/-- C3 counterexample: patching only `status := complete` on the fresh task
(whose `completed_at` is null) changes `completed_at` — a field that is not
in the patch (and is not even expressible in a patch) and is not
`updated_at` — so "only patched fields plus `updated_at` change" fails as
stated. -/
theorem c3_counterexample :
    Option.map Task.completed_at
        (updateTask envX [] [taskFresh] ("a2") { status := some TaskStatus.complete }).1
      = some (some ("T9"))
    ∧ taskFresh.completed_at = none := by
  decide

/-- C3 (amended): an update against an existing task applies exactly the
patch fields and preserves every other field — `id`, `created_at`,
`llm_usage`, and each absent patch field — except that `updated_at` is
always refreshed to now, and `completed_at` is set to now when the patch
transitions status into complete (and preserved otherwise); tags are
re-resolved through the registry exactly when the patch carries them, and
otherwise both the task's tags and the registry are unchanged. -/
theorem c3_amended_partial_update (env : Env) (reg : TagService.Registry)
    (store : List Task) (id : String) (t : Task) (r : UpdateTaskRequest)
    (hfound : getTaskById store id = some t)
    (hWF : TagService.WF reg) :
    (updateTask env reg store id r).1.isSome = true
    ∧ (∀ t', (updateTask env reg store id r).1 = some t' →
        (t'.id = t.id
        ∧ t'.created_at = t.created_at
        ∧ t'.llm_usage = t.llm_usage
        ∧ t'.updated_at = env.now
        ∧ (r.title = none → t'.title = t.title)
        ∧ (∀ x, r.title = some x → t'.title = x)
        ∧ (r.description = none → t'.description = t.description)
        ∧ (∀ x, r.description = some x → t'.description = x)
        ∧ (r.model_strategy = none → t'.model_strategy = t.model_strategy)
        ∧ (∀ x, r.model_strategy = some x → t'.model_strategy = x)
        ∧ (r.estimated_token_cost = none →
            t'.estimated_token_cost = t.estimated_token_cost)
        ∧ (∀ x, r.estimated_token_cost = some x → t'.estimated_token_cost = x)
        ∧ (r.estimated_dollar_cost = none →
            t'.estimated_dollar_cost = t.estimated_dollar_cost)
        ∧ (∀ x, r.estimated_dollar_cost = some x → t'.estimated_dollar_cost = x)
        ∧ (r.status = none → t'.status = t.status)
        ∧ (∀ x, r.status = some x → t'.status = x)
        ∧ (r.assignee = none → t'.assignee = t.assignee)
        ∧ (∀ x, r.assignee = some x → t'.assignee = x)
        ∧ (r.tags = none →
            t'.tags = t.tags ∧ (updateTask env reg store id r).2.1 = reg)
        ∧ (∀ names, r.tags = some names → t'.tags = names.map normalizeTag)
        ∧ (¬ (r.status = some TaskStatus.complete ∧ t.status ≠ TaskStatus.complete) →
            t'.completed_at = t.completed_at)
        ∧ (r.status = some TaskStatus.complete → t.status ≠ TaskStatus.complete →
            t'.completed_at = some env.now))) := by
  have hu := updateTask_fst env reg store id t r hfound
  refine ⟨by rw [hu]; rfl, ?_⟩
  intro t' ht'
  rw [hu] at ht'
  obtain rfl : t' = applyUpdates t (updatesFor env reg t r) := (Option.some.inj ht').symm
  refine ⟨?_, ?_, ?_, ?_, ?_, ?_, ?_, ?_, ?_, ?_, ?_,
    ?_, ?_, ?_, ?_, ?_, ?_, ?_, ?_, ?_, ?_, ?_⟩
  · simp [applyUpdates, updatesFor]
  · simp [applyUpdates, updatesFor]
  · simp [applyUpdates, updatesFor]
  · simp [applyUpdates, updatesFor]
  · intro h
    simp [applyUpdates, updatesFor, h]
  · intro x h
    simp [applyUpdates, updatesFor, h]
  · intro h
    simp [applyUpdates, updatesFor, h]
  · intro x h
    simp [applyUpdates, updatesFor, h]
  · intro h
    simp [applyUpdates, updatesFor, h]
  · intro x h
    simp [applyUpdates, updatesFor, h]
  · intro h
    simp [applyUpdates, updatesFor, h]
  · intro x h
    simp [applyUpdates, updatesFor, h]
  · intro h
    simp [applyUpdates, updatesFor, h]
  · intro x h
    simp [applyUpdates, updatesFor, h]
  · intro h
    simp [applyUpdates, updatesFor, h]
  · intro x h
    simp [applyUpdates, updatesFor, h]
  · intro h
    simp [applyUpdates, updatesFor, h]
  · intro x h
    simp [applyUpdates, updatesFor, h]
  · intro h
    refine ⟨?_, updateTask_reg_of_tags_none env reg store id t r hfound h⟩
    simp [applyUpdates, updatesFor, h]
  · intro names h
    have hn := ensureTagsExist_fst_names names reg hWF
    simp [applyUpdates, updatesFor, h, hn.1]
  · intro h
    simp only [applyUpdates, updatesFor]
    rw [if_neg h]
  · intro h1 h2
    simp only [applyUpdates, updatesFor]
    rw [if_pos ⟨h1, h2⟩]

/-- Witness for C3 (amended): patching only the title of the fresh task
succeeds. -/
theorem c3_witness :
    (updateTask envX [] [taskFresh] ("a2") { title := some ("C") }).1.isSome = true := by
  have h := c3_amended_partial_update envX [] [taskFresh] ("a2") taskFresh
    { title := some ("C") } (by decide) (by intro e he; cases he)
  exact h.1

/-! ## Claim C5 -/

/-- C5 counterexample: with the tag filter provided as the empty string,
`getAllTasks` returns a task whose tags do not contain that tag — the
code treats a provided-but-empty tag filter as no filter (JS truthiness),
so "only tasks whose tags contain the provided tag" fails as stated. -/
theorem c5_counterexample :
    getAllTasks [taskX] none (some ("")) = [taskX]
    ∧ taskX.tags.contains ("") = false := by
  decide

/-- C5 (amended): for a tag filter that is absent or non-empty, `getAllTasks`
returns exactly the tasks matching every provided, non-undefined filter
field conjunctively (an empty-string tag filter is treated as no tag
filter); `assignee = some none` selects exactly the unassigned tasks, and
no filters at all returns every task. -/
theorem c5_amended_filter_semantics (store : List Task)
    (assignee : Option (Option Assignee)) (tag : Option String)
    (hne : ∀ s, tag = some s → s.isEmpty = false) :
    getAllTasks store assignee tag = store.filter (matchesFilterSpec assignee tag)
    ∧ getAllTasks store none none = store
    ∧ getAllTasks store (some none) none
        = store.filter (fun t => decide (t.assignee = none)) := by
  have hmain : getAllTasks store assignee tag
      = store.filter (matchesFilterSpec assignee tag) := by
    cases assignee with
    | none =>
      cases tag with
      | none =>
        simp only [getAllTasks]
        symm
        rw [List.filter_eq_self]
        intro a _
        rfl
      | some s =>
        have hs := hne s rfl
        simp [getAllTasks, hs]
        refine List.filter_congr ?_
        intro a _
        simp [matchesFilterSpec]
    | some a =>
      cases tag with
      | none =>
        simp only [getAllTasks]
        refine List.filter_congr ?_
        intro x _
        simp [matchesFilterSpec]
      | some s =>
        have hs := hne s rfl
        simp only [getAllTasks, hs, Bool.false_eq_true, if_false, List.filter_filter]
        refine List.filter_congr ?_
        intro x _
        cases hxa : decide (x.assignee = a) <;> cases hxt : x.tags.contains s <;>
          simp_all [matchesFilterSpec]
  refine ⟨hmain, rfl, rfl⟩

/-- Witness for C5 (amended) at a three-task store and a non-empty tag
filter. -/
theorem c5_witness :
    getAllTasks [taskR, taskJ, taskX] none (some ("x"))
      = [taskR, taskJ, taskX].filter (matchesFilterSpec none (some ("x"))) := by
  have h := c5_amended_filter_semantics [taskR, taskJ, taskX] none (some ("x"))
    (fun s hs => by cases hs; rfl)
  exact h.1

end Clawban
